import Mathlib

/-!
Shallow embedding of the browser tab-pool core of the `distill` repository
(`src/browser.rs`), together with proofs of the specification claims.

Modelling conventions:
* `Arc<Tab>` handles and `Uuid` tab ids are modelled as `Nat`; `Uuid::new_v4`
  freshness is modelled by a monotone counter `nextTabId` in the manager state.
* The tokio semaphore is modelled by its available-permit count `permits`;
  a successful `acquire_owned` requires `0 < permits` (the semaphore suspends
  otherwise) and decrements it, and dropping the permit increments it back.
* The `Vec<IdleTab>` idle cache is modelled as a `List IdleTab` with
  `Vec::push` appending at the end and `Vec::pop` removing the last element.
* Calls into the external `headless_chrome` collaborator (`new_tab`,
  `launch_browser`, `get_target_info`, navigation, script evaluation) and
  into the `htmd` converter are parameters supplied by environment records:
  the embedding fixes only what `browser.rs` itself does with their results.
* Effects on the outside world that the claims observe (which tabs were
  probed via `get_target_info`, which tabs had `close(true)` called on them,
  how many `new_tab` calls and `restart_browser` calls were made) are
  recorded in explicit output fields.
-/

namespace Distill

/-- The error type of `src/error.rs` restricted to the variants produced by
`browser.rs`: `Timeout`, `Browser` and `Internal`. -/
inductive AppError where
  | Timeout : String → AppError
  | Browser : String → AppError
  | Internal : String → AppError
deriving DecidableEq, Repr

/-- `OutputFormat` from `src/models.rs`. -/
inductive OutputFormat where
  | Markdown : OutputFormat
  | Html : OutputFormat
deriving DecidableEq, Repr

/-- `PageMetadata` from `src/models.rs`; the `HashMap` of og tags is modelled
as an association list (the spec calls the mapping ordered-irrelevant). -/
structure PageMetadata where
  title : String
  og_tags : List (String × String)
deriving DecidableEq, Repr

/-- `PageExtractResult` from `src/models.rs`. -/
structure PageExtractResult where
  title : String
  og_tags : List (String × String)
  body_html : String
deriving DecidableEq, Repr

/-- `IdleTab` from `src/browser.rs`: a cached tab handle together with its id. -/
structure IdleTab where
  id : Nat
  tab : Nat
deriving DecidableEq, Repr

/-- The mutable state of `BrowserManager`: semaphore permit count, idle-tab
cache, current browser process (as a generation number incremented by each
restart), the fresh-id counter, and the configured capacity. -/
structure ManagerState where
  permits : Nat
  idle : List IdleTab
  gen : Nat
  nextTabId : Nat
  max_concurrent_tabs : Nat
deriving DecidableEq, Repr

/-- `TabGuard` from `src/browser.rs` (the lease): the tab handle and its id.
The owned semaphore permit it holds is accounted for in `ManagerState.permits`. -/
structure TabGuard where
  tab : Nat
  tab_id : Nat
deriving DecidableEq, Repr

/-- `Vec::push`: append at the end. -/
def vecPush (v : List IdleTab) (x : IdleTab) : List IdleTab := v ++ [x]

/-- `Vec::pop`: remove and return the last element (`none` when empty). -/
def vecPop (v : List IdleTab) : Option IdleTab × List IdleTab :=
  (v.getLast?, v.dropLast)

/-- `tabs.iter().position(|t| t.id == tab_id)` followed by `tabs.remove(pos)`:
returns the cache after removal together with the removed entry, or the cache
unchanged and `none` when no entry has the id. -/
def removeById (tabs : List IdleTab) (t_id : Nat) : List IdleTab × Option IdleTab :=
  match tabs.findIdx? (fun t => t.id == t_id) with
  | some pos => (tabs.eraseIdx pos, tabs.get? pos)
  | none => (tabs, none)

/-- Substring containment, modelling `str::contains`. -/
def containsSubstr (s pat : String) : Bool :=
  decide (pat.toList <:+: s.toList)

/-- `BrowserManager::is_connection_error`: classify a tab-creation error text
as process-lost by matching the fixed phrase list. -/
def is_connection_error (error_msg : String) : Bool :=
  containsSubstr error_msg "connection is closed"
    || containsSubstr error_msg "connection closed"
    || containsSubstr error_msg "not connected"
    || containsSubstr error_msg "Browser has been closed"

/-- `IDLE_TAB_TIMEOUT_SECS` from `src/browser.rs`. -/
def IDLE_TAB_TIMEOUT_SECS : Nat := 1

/-- `BROWSER_TIMEOUT_SECS` from `src/browser.rs`. -/
def BROWSER_TIMEOUT_SECS : Nat := 10

/-- `BrowserManager::new(max_concurrent_tabs)` after a successful initial
browser launch: full permits, empty idle cache, generation 0. -/
def newManager (max_concurrent_tabs : Nat) : ManagerState :=
  { permits := max_concurrent_tabs
    idle := []
    gen := 0
    nextTabId := 0
    max_concurrent_tabs := max_concurrent_tabs }

/-- `BrowserManager::restart_browser`: first clear the idle cache, then launch
a fresh browser (`launch` is the external `launch_browser()` outcome) and, on
success, install it as the current process (generation + 1). On launch failure
the error propagates with the cache already cleared and the old generation
still installed. -/
def restart_browser (s : ManagerState) (launch : Except AppError Unit) :
    Except AppError Unit × ManagerState :=
  let s1 : ManagerState := { s with idle := [] }
  match launch with
  | .ok _ => (.ok (), { s1 with gen := s1.gen + 1 })
  | .error e => (.error e, s1)

/-- Environment for `create_tab_with_retry`: the outcomes of the external
calls it can make, in order: the first `browser.new_tab()` (`attempt1`, an
error carries the error text `e.to_string()`), the `launch_browser()` inside
a restart (`launch`), and the `new_tab()` retry against the new process
(`attempt2`). -/
structure CreateEnv where
  attempt1 : Except String Nat
  launch : Except AppError Unit
  attempt2 : Except String Nat
deriving Repr

/-- Result of `create_tab_with_retry`: the returned tab or error, the manager
state after the call, and counters for the observable external effects: how
many times `restart_browser` was entered and how many `new_tab` calls were
made. -/
structure CreateOutcome where
  result : Except AppError Nat
  state : ManagerState
  restarts : Nat
  attempts : Nat
deriving Repr

/-- `BrowserManager::create_tab_with_retry`: try `new_tab()`; on success
return the tab. On an error classified by `is_connection_error`, restart the
browser and retry `new_tab()` exactly once, mapping a second failure to
`Browser ("Tab creation failed after restart: " ++ e)`; a failed restart
propagates its own error. On an error not so classified, return
`Browser ("Tab creation failed: " ++ e)` immediately with no restart. -/
def create_tab_with_retry (s : ManagerState) (env : CreateEnv) : CreateOutcome :=
  match env.attempt1 with
  | .ok tb => { result := .ok tb, state := s, restarts := 0, attempts := 1 }
  | .error e =>
    if is_connection_error e then
      match restart_browser s env.launch with
      | (.ok _, s1) =>
        match env.attempt2 with
        | .ok tb => { result := .ok tb, state := s1, restarts := 1, attempts := 2 }
        | .error e2 =>
          { result := .error (.Browser ("Tab creation failed after restart: " ++ e2))
            state := s1, restarts := 1, attempts := 2 }
      | (.error err, s1) =>
        { result := .error err, state := s1, restarts := 1, attempts := 1 }
    else
      { result := .error (.Browser ("Tab creation failed: " ++ e))
        state := s, restarts := 0, attempts := 1 }

/-- Environment for `acquire_tab`: the outcome of `get_target_info().is_ok()`
for each tab handle (the liveness probe), and the `CreateEnv` for the
tab-creation calls it may fall through to. -/
structure AcquireEnv where
  probe : Nat → Bool
  createEnv : CreateEnv

/-- Result of `acquire_tab`: the lease or error, the manager state after the
call, and a record of the observable effects: which tab handles were probed
with `get_target_info`, which had `close(true)` called on them, and the
`restart_browser` / `new_tab` call counts. -/
structure AcquireOutcome where
  result : Except AppError TabGuard
  state : ManagerState
  probed : List Nat
  closed : List Nat
  restarts : Nat
  attempts : Nat
deriving Repr

/-- The create-and-package tail of `acquire_tab` (from
`self.create_tab_with_retry().await?` on): on success, package the fresh tab
with a fresh id as a `TabGuard` keeping the permit; on failure the `permit`
local is dropped (returned to the semaphore) as the error propagates. No
`close(true)` call occurs on this path. -/
def acquireCreate (s : ManagerState) (env : CreateEnv) (probed : List Nat) :
    AcquireOutcome :=
  let co := create_tab_with_retry s env
  match co.result with
  | .ok tb =>
    { result := .ok { tab := tb, tab_id := co.state.nextTabId }
      state := { co.state with nextTabId := co.state.nextTabId + 1 }
      probed := probed, closed := [], restarts := co.restarts, attempts := co.attempts }
  | .error e =>
    { result := .error e
      state := { co.state with permits := co.state.permits + 1 }
      probed := probed, closed := [], restarts := co.restarts, attempts := co.attempts }

/-- `BrowserManager::acquire_tab`, after the semaphore has granted a permit
(the caller of this definition is responsible for the precondition
`0 < s.permits`; the semaphore suspends otherwise). Pops at most one idle
entry; if its probe succeeds the entry is reused as the lease, otherwise the
popped entry is dropped (no `close` call in the source) and control falls
through to tab creation. -/
def acquire_tab (s : ManagerState) (env : AcquireEnv) : AcquireOutcome :=
  let s0 : ManagerState := { s with permits := s.permits - 1 }
  match vecPop s0.idle with
  | (some idleTab, rest) =>
    if env.probe idleTab.tab then
      { result := .ok { tab := idleTab.tab, tab_id := idleTab.id }
        state := { s0 with idle := rest }
        probed := [idleTab.tab], closed := [], restarts := 0, attempts := 0 }
    else
      acquireCreate { s0 with idle := rest } env.createEnv [idleTab.tab]
  | (none, _) => acquireCreate s0 env.createEnv []

/-- `impl Drop for TabGuard`, immediate part: the spawned task first pushes
the tab back onto the idle cache, and dropping the owned permit returns it to
the semaphore. (The delayed expiry of the same spawned task is `timerFire`.) -/
def dropGuard (s : ManagerState) (g : TabGuard) : ManagerState :=
  { s with
    permits := s.permits + 1
    idle := vecPush s.idle { id := g.tab_id, tab := g.tab } }

/-- `impl Drop for TabGuard`, delayed part: after the grace-period sleep the
task removes the entry with its id, if still present, and calls `close(true)`
on it; returns the new state and the list of tab handles closed. -/
def timerFire (s : ManagerState) (t_id : Nat) : ManagerState × List Nat :=
  let r := removeById s.idle t_id
  ({ s with idle := r.1 }, (r.2.map IdleTab.tab).toList)

/-- `format!("Timeout after {}s: {}", BROWSER_TIMEOUT_SECS, url)`. -/
def timeoutMsg (url : String) : String :=
  "Timeout after " ++ toString BROWSER_TIMEOUT_SECS ++ "s: " ++ url

/-- Environment for `do_scrape`: the outcome of the first `spawn_blocking`
block (navigate, wait_until_navigated, wait_for_element, already mapped to
`AppError` exactly as the source maps each failure), the outcome of the
second `spawn_blocking` block (script evaluation and JSON parse, likewise
mapped), and the external `htmd::convert` collaborator. -/
structure DoScrapeEnv where
  navResult : Except AppError Unit
  extractResult : Except AppError PageExtractResult
  convert : String → Except String String

/-- `BrowserManager::do_scrape`: navigate/wait, extract, then format. When
the requested format is `Html` the extracted `body_html` is returned
unchanged; when it is `Markdown` the body is passed through `htmd::convert`,
a conversion failure becoming
`Internal ("Markdown conversion failed: " ++ e)`. -/
def do_scrape (env : DoScrapeEnv) (output_format : OutputFormat) :
    Except AppError (PageMetadata × String) :=
  match env.navResult with
  | .error e => .error e
  | .ok _ =>
    match env.extractResult with
    | .error e => .error e
    | .ok extract_result =>
      let metadata : PageMetadata :=
        { title := extract_result.title, og_tags := extract_result.og_tags }
      match output_format with
      | .Html => .ok (metadata, extract_result.body_html)
      | .Markdown =>
        match env.convert extract_result.body_html with
        | .ok md => .ok (metadata, md)
        | .error e => .error (.Internal ("Markdown conversion failed: " ++ e))

/-- Environment for `scrape_page`: the acquire environment, whether the
overall `BROWSER_TIMEOUT_SECS` timeout elapsed before `do_scrape` completed,
and the `do_scrape` environment used when it did not. -/
structure ScrapeEnv where
  acquireEnv : AcquireEnv
  timedOut : Bool
  scrapeEnv : DoScrapeEnv

/-- Result of `scrape_page`: the scrape result or error and the manager state
after the call (the guard's drop included). -/
structure ScrapeOutcome where
  result : Except AppError (PageMetadata × String)
  state : ManagerState

/-- `BrowserManager::scrape_page`: acquire a lease (errors propagate), run
`do_scrape` under the overall timeout — a timeout yields
`Timeout (timeoutMsg url)` — and in either case drop the guard at the end of
scope, which releases the lease through the normal release path. -/
def scrape_page (s : ManagerState) (env : ScrapeEnv) (url : String)
    (output_format : OutputFormat) : ScrapeOutcome :=
  let a := acquire_tab s env.acquireEnv
  match a.result with
  | .error e => { result := .error e, state := a.state }
  | .ok tab_guard =>
    let result : Except AppError (PageMetadata × String) :=
      if env.timedOut then .error (.Timeout (timeoutMsg url))
      else do_scrape env.scrapeEnv output_format
    { result := result, state := dropGuard a.state tab_guard }

/-- `BrowserStats` from `src/browser.rs`. -/
structure BrowserStats where
  max_concurrent : Nat
  available_slots : Nat
  idle_tabs : Nat
  active_tabs : Nat
deriving DecidableEq, Repr

/-- `BrowserManager::stats`: a pure snapshot of the state. -/
def stats (s : ManagerState) : BrowserStats :=
  { max_concurrent := s.max_concurrent_tabs
    available_slots := s.permits
    idle_tabs := s.idle.length
    active_tabs := s.max_concurrent_tabs - s.permits }

/-- One step of the pool, tracking the multiset of outstanding leases as a
list of guards. `acquireOk`/`acquireFail` require a free permit (the
semaphore suspends the caller otherwise); `release` drops an outstanding
guard; `timer` is a grace-period expiry task firing for an arbitrary id. -/
inductive PoolStep : ManagerState → List TabGuard → ManagerState → List TabGuard → Prop
  | acquireOk (s : ManagerState) (gs : List TabGuard) (env : AcquireEnv) (g : TabGuard)
      (hp : 0 < s.permits) (hok : (acquire_tab s env).result = .ok g) :
      PoolStep s gs (acquire_tab s env).state (g :: gs)
  | acquireFail (s : ManagerState) (gs : List TabGuard) (env : AcquireEnv) (e : AppError)
      (hp : 0 < s.permits) (herr : (acquire_tab s env).result = .error e) :
      PoolStep s gs (acquire_tab s env).state gs
  | release (s : ManagerState) (gs : List TabGuard) (g : TabGuard) (hg : g ∈ gs) :
      PoolStep s gs (dropGuard s g) (gs.erase g)
  | timer (s : ManagerState) (gs : List TabGuard) (t_id : Nat) :
      PoolStep s gs (timerFire s t_id).1 gs

/-- States reachable from a freshly constructed pool of capacity `n` by any
sequence of acquire, release and expiry-timer steps. -/
inductive Reach (n : Nat) : ManagerState → List TabGuard → Prop
  | init : Reach n (newManager n) []
  | step {s : ManagerState} {gs : List TabGuard} {s1 : ManagerState}
      {gs1 : List TabGuard} :
      Reach n s gs → PoolStep s gs s1 gs1 → Reach n s1 gs1

/-- The inductive invariant of the pool: capacity bookkeeping (permits plus
outstanding leases equal capacity), uniqueness of ids in the idle cache and
among outstanding leases, disjointness of the two, and freshness of the
id counter. -/
structure Inv (n : Nat) (s : ManagerState) (gs : List TabGuard) : Prop where
  cap : s.max_concurrent_tabs = n
  count : s.permits + gs.length = n
  idleNodup : (s.idle.map IdleTab.id).Nodup
  guardNodup : (gs.map TabGuard.tab_id).Nodup
  disj : ∀ g ∈ gs, g.tab_id ∉ s.idle.map IdleTab.id
  idleLt : ∀ t ∈ s.idle, t.id < s.nextTabId
  guardLt : ∀ g ∈ gs, g.tab_id < s.nextTabId

/-- An environment for `create_tab_with_retry` in which the first `new_tab()`
call succeeds (used to iterate successful acquires for the stats claim). -/
def simpleCreateEnv : CreateEnv :=
  { attempt1 := .ok 0, launch := .ok (), attempt2 := .ok 0 }

/-- An acquire environment with all probes succeeding and tab creation
succeeding on the first attempt. -/
def simpleAcquireEnv : AcquireEnv :=
  { probe := fun _ => true, createEnv := simpleCreateEnv }

/-- The state after `k` successful `acquire_tab` calls with no intervening
releases. -/
def acquireK : Nat → ManagerState → ManagerState
  | 0, s => s
  | k + 1, s => acquireK k (acquire_tab s simpleAcquireEnv).state

/-- A small concrete manager state used by witnesses: capacity 1, one idle
entry with id 3 and tab handle 7, next fresh id 4. -/
def witnessState : ManagerState :=
  { permits := 1, idle := [{ id := 3, tab := 7 }], gen := 0, nextTabId := 4
    max_concurrent_tabs := 1 }

/-! ### Helper lemmas about the list-level operations -/

theorem vecPop_push (v : List IdleTab) (x : IdleTab) :
    vecPop (vecPush v x) = (some x, v) := by
  simp [vecPop, vecPush, List.getLast?_concat, List.dropLast_concat]

theorem idle_eq_nil_or_concat (l : List IdleTab) :
    l = [] ∨ ∃ l' t, l = l' ++ [t] := by
  rcases l.eq_nil_or_concat with h | ⟨l', t, h⟩
  · exact Or.inl h
  · exact Or.inr ⟨l', t, by simpa using h⟩

theorem nodup_concat_ids {rest : List IdleTab} {t : IdleTab}
    (h : ((rest ++ [t]).map IdleTab.id).Nodup) :
    (rest.map IdleTab.id).Nodup ∧ t.id ∉ rest.map IdleTab.id := by
  rw [List.map_append, List.map_singleton, List.nodup_append] at h
  refine ⟨h.1, ?_⟩
  intro hmem
  exact h.2.2 hmem (by simp)

theorem removeById_nil (t_id : Nat) : removeById [] t_id = ([], none) := rfl

theorem removeById_cons (t : IdleTab) (tabs : List IdleTab) (t_id : Nat) :
    removeById (t :: tabs) t_id =
      if t.id = t_id then (tabs, some t)
      else (t :: (removeById tabs t_id).1, (removeById tabs t_id).2) := by
  by_cases h : t.id = t_id
  · simp [removeById, List.findIdx?_cons, h]
  · have hb : (fun x : IdleTab => x.id == t_id) t = false := by
      simp [h]
    rcases hfi : tabs.findIdx? (fun x => x.id == t_id) with _ | pos
    · simp [removeById, List.findIdx?_cons, hb, hfi, h]
    · simp [removeById, List.findIdx?_cons, hb, hfi, h]

theorem removeById_not_mem {tabs : List IdleTab} {t_id : Nat}
    (h : ∀ t ∈ tabs, t.id ≠ t_id) : removeById tabs t_id = (tabs, none) := by
  induction tabs with
  | nil => rfl
  | cons t ts ih =>
    rw [removeById_cons]
    have ht : t.id ≠ t_id := h t (by simp)
    have hts : ∀ u ∈ ts, u.id ≠ t_id := fun u hu => h u (by simp [hu])
    simp [ht, ih hts]

theorem removeById_mem {tabs : List IdleTab} {t_id : Nat}
    (hnd : (tabs.map IdleTab.id).Nodup) (hmem : t_id ∈ tabs.map IdleTab.id) :
    ∃ t ∈ tabs, t.id = t_id ∧
      removeById tabs t_id = ((removeById tabs t_id).1, some t) ∧
      t_id ∉ ((removeById tabs t_id).1.map IdleTab.id) := by
  induction tabs with
  | nil => simp at hmem
  | cons u ts ih =>
    by_cases hu : u.id = t_id
    · refine ⟨u, by simp, hu, ?_, ?_⟩
      · rw [removeById_cons]
        simp [hu]
      · rw [removeById_cons]
        simp only [hu, if_true]
        have := hnd
        rw [List.map_cons, List.nodup_cons] at this
        rw [hu] at this
        exact this.1
    · have hmem' : t_id ∈ ts.map IdleTab.id := by
        rcases List.mem_map.mp hmem with ⟨w, hw, hwid⟩
        rcases List.mem_cons.mp hw with hwu | hwts
        · exact absurd (hwu ▸ hwid) hu
        · exact List.mem_map.mpr ⟨w, hwts, hwid⟩
      have hnd' : (ts.map IdleTab.id).Nodup := by
        rw [List.map_cons, List.nodup_cons] at hnd
        exact hnd.2
      rcases ih hnd' hmem' with ⟨t, htmem, htid, heq, hnot⟩
      refine ⟨t, by simp [htmem], htid, ?_, ?_⟩
      · rw [removeById_cons]
        simp only [hu, if_false]
        rw [(congrArg Prod.snd heq : (removeById ts t_id).2 = some t)]
      · rw [removeById_cons]
        simp only [hu, if_false, List.map_cons]
        rw [List.mem_cons]
        rintro (h1 | h2)
        · exact hu h1.symm
        · exact hnot h2

theorem removeById_fst_sublist (tabs : List IdleTab) (t_id : Nat) :
    List.Sublist (removeById tabs t_id).1 tabs := by
  rcases h : tabs.findIdx? (fun t => t.id == t_id) with _ | pos
  · simp [removeById, h]
  · simp only [removeById, h]
    exact List.eraseIdx_sublist tabs pos

/-! ### State facts about creation, acquire, release -/

theorem create_state_fields (s : ManagerState) (env : CreateEnv) :
    (create_tab_with_retry s env).state.permits = s.permits ∧
    (create_tab_with_retry s env).state.max_concurrent_tabs = s.max_concurrent_tabs ∧
    (create_tab_with_retry s env).state.nextTabId = s.nextTabId ∧
    ((create_tab_with_retry s env).state.idle = s.idle ∨
      (create_tab_with_retry s env).state.idle = []) := by
  obtain ⟨a1, la, a2⟩ := env
  rcases a1 with e | tb
  · by_cases hc : is_connection_error e
    · rcases la with el | u
      · simp [create_tab_with_retry, restart_browser, hc]
      · rcases a2 with e2 | tb2 <;>
          simp [create_tab_with_retry, restart_browser, hc]
    · simp [create_tab_with_retry, hc]
  · simp [create_tab_with_retry]

theorem acquireCreate_state (s : ManagerState) (env : CreateEnv) (probed : List Nat) :
    ((∃ g, (acquireCreate s env probed).result = .ok g ∧ g.tab_id = s.nextTabId ∧
        (acquireCreate s env probed).state.permits = s.permits ∧
        (acquireCreate s env probed).state.nextTabId = s.nextTabId + 1) ∨
      (∃ e, (acquireCreate s env probed).result = .error e ∧
        (acquireCreate s env probed).state.permits = s.permits + 1 ∧
        (acquireCreate s env probed).state.nextTabId = s.nextTabId)) ∧
    (acquireCreate s env probed).state.max_concurrent_tabs = s.max_concurrent_tabs ∧
    ((acquireCreate s env probed).state.idle = s.idle ∨
      (acquireCreate s env probed).state.idle = []) := by
  obtain ⟨hp, hm, hn, hi⟩ := create_state_fields s env
  rcases hres : (create_tab_with_retry s env).result with e | tb
  · refine ⟨Or.inr ⟨e, ?_, ?_, ?_⟩, ?_, ?_⟩
    · simp [acquireCreate, hres]
    · simp [acquireCreate, hres, hp]
    · simp [acquireCreate, hres, hn]
    · simp [acquireCreate, hres, hm]
    · simpa [acquireCreate, hres] using hi
  · refine ⟨Or.inl ⟨{ tab := tb, tab_id := s.nextTabId }, ?_, rfl, ?_, ?_⟩, ?_, ?_⟩
    · simp [acquireCreate, hres, hn]
    · simp [acquireCreate, hres, hp]
    · simp [acquireCreate, hres, hn]
    · simp [acquireCreate, hres, hm]
    · simpa [acquireCreate, hres] using hi

theorem acquire_tab_nil (s : ManagerState) (env : AcquireEnv) (h : s.idle = []) :
    acquire_tab s env =
      acquireCreate { s with permits := s.permits - 1 } env.createEnv [] := by
  simp [acquire_tab, vecPop, h]

theorem acquire_tab_concat (s : ManagerState) (env : AcquireEnv) (rest : List IdleTab)
    (t : IdleTab) (h : s.idle = rest ++ [t]) :
    acquire_tab s env =
      if env.probe t.tab then
        { result := .ok { tab := t.tab, tab_id := t.id }
          state := { s with permits := s.permits - 1, idle := rest }
          probed := [t.tab], closed := [], restarts := 0, attempts := 0 }
      else
        acquireCreate { s with permits := s.permits - 1, idle := rest } env.createEnv
          [t.tab] := by
  by_cases hpr : env.probe t.tab <;>
    simp [acquire_tab, vecPop, h, List.getLast?_concat, List.dropLast_concat, hpr]

/-! ### Invariant preservation -/

theorem inv_acquireCreate {n : Nat} (s1 : ManagerState) {gs : List TabGuard}
    (env : CreateEnv) (probed : List Nat)
    (hcap : s1.max_concurrent_tabs = n)
    (hcount : s1.permits + (gs.length + 1) = n)
    (hidle : (s1.idle.map IdleTab.id).Nodup)
    (hguard : (gs.map TabGuard.tab_id).Nodup)
    (hdisj : ∀ g ∈ gs, g.tab_id ∉ s1.idle.map IdleTab.id)
    (hidleLt : ∀ t ∈ s1.idle, t.id < s1.nextTabId)
    (hguardLt : ∀ g ∈ gs, g.tab_id < s1.nextTabId) :
    (∀ g, (acquireCreate s1 env probed).result = .ok g →
      Inv n (acquireCreate s1 env probed).state (g :: gs)) ∧
    (∀ e, (acquireCreate s1 env probed).result = .error e →
      Inv n (acquireCreate s1 env probed).state gs) := by
  obtain ⟨hcases, hm, hi⟩ := acquireCreate_state s1 env probed
  have hidle1 : ((acquireCreate s1 env probed).state.idle.map IdleTab.id).Nodup := by
    rcases hi with hi | hi <;> rw [hi] <;> simp [hidle]
  have hsub : ∀ x, x ∈ (acquireCreate s1 env probed).state.idle.map IdleTab.id →
      x ∈ s1.idle.map IdleTab.id := by
    rcases hi with hi | hi <;> rw [hi] <;> intro x hx <;> simp_all
  have hmemIdle : ∀ t ∈ (acquireCreate s1 env probed).state.idle, t ∈ s1.idle := by
    rcases hi with hi | hi <;> rw [hi] <;> intro t ht <;> simp_all
  constructor
  · intro g hg
    rcases hcases with ⟨g', hres, hgid, hperm, hnext⟩ | ⟨e, hres, _, _⟩
    · obtain rfl : g' = g := Except.ok.inj (hres.symm.trans hg)
      refine ⟨hm.trans hcap, ?_, hidle1, ?_, ?_, ?_, ?_⟩
      · rw [hperm]
        simpa using hcount
      · rw [List.map_cons, List.nodup_cons]
        refine ⟨?_, hguard⟩
        intro hmem
        rcases List.mem_map.mp hmem with ⟨g0, hg0, hid0⟩
        have := hguardLt g0 hg0
        omega
      · intro g0 hg0
        rcases List.mem_cons.mp hg0 with rfl | hg0
        · intro hmem
          rcases List.mem_map.mp hmem with ⟨t, ht, hid⟩
          have hlt := hidleLt t (hmemIdle t ht)
          omega
        · intro hmem
          exact hdisj g0 hg0 (hsub _ hmem)
      · intro t ht
        have := hidleLt t (hmemIdle t ht)
        rw [hnext]
        omega
      · intro g0 hg0
        rw [hnext]
        rcases List.mem_cons.mp hg0 with rfl | hg0
        · omega
        · have := hguardLt g0 hg0
          omega
    · rw [hres] at hg
      exact absurd hg (by simp)
  · intro e he
    rcases hcases with ⟨g', hres, _, _, _⟩ | ⟨e', hres, hperm, hnext⟩
    · rw [hres] at he
      exact absurd he (by simp)
    · refine ⟨hm.trans hcap, ?_, hidle1, hguard, ?_, ?_, ?_⟩
      · rw [hperm]
        omega
      · intro g0 hg0 hmem
        exact hdisj g0 hg0 (hsub _ hmem)
      · intro t ht
        rw [hnext]
        exact hidleLt t (hmemIdle t ht)
      · intro g0 hg0
        rw [hnext]
        exact hguardLt g0 hg0

theorem inv_step {n : Nat} {s : ManagerState} {gs : List TabGuard}
    {s1 : ManagerState} {gs1 : List TabGuard}
    (hinv : Inv n s gs) (hstep : PoolStep s gs s1 gs1) : Inv n s1 gs1 := by
  obtain ⟨hcap, hcount, hidle, hguard, hdisj, hidleLt, hguardLt⟩ := hinv
  cases hstep with
  | acquireOk env g hp hok =>
    rcases idle_eq_nil_or_concat s.idle with hnil | ⟨rest, t, hconcat⟩
    · rw [acquire_tab_nil s env hnil] at hok ⊢
      refine (inv_acquireCreate { s with permits := s.permits - 1 } env.createEnv []
        hcap ?_ hidle hguard hdisj hidleLt hguardLt).1 g hok
      simp only []
      omega
    · rw [acquire_tab_concat s env rest t hconcat] at hok ⊢
      obtain ⟨hrestNd, htNotRest⟩ := nodup_concat_ids (hconcat ▸ hidle)
      have htmem : t ∈ s.idle := by rw [hconcat]; simp
      have htid : t.id ∈ s.idle.map IdleTab.id := List.mem_map.mpr ⟨t, htmem, rfl⟩
      have hrestSub : ∀ x, x ∈ rest.map IdleTab.id → x ∈ s.idle.map IdleTab.id := by
        intro x hx
        rw [hconcat, List.map_append]
        exact List.mem_append_left _ hx
      have hrestMem : ∀ u ∈ rest, u ∈ s.idle := by
        intro u hu
        rw [hconcat]
        exact List.mem_append_left _ hu
      by_cases hpr : env.probe t.tab
      · simp only [hpr, if_true] at hok ⊢
        obtain rfl : TabGuard.mk t.tab t.id = g := Except.ok.inj hok
        refine ⟨hcap, ?_, hrestNd, ?_, ?_, ?_, ?_⟩
        · simp only [List.length_cons]
          omega
        · rw [List.map_cons, List.nodup_cons]
          refine ⟨?_, hguard⟩
          intro hmem
          rcases List.mem_map.mp hmem with ⟨g0, hg0, hid0⟩
          exact hdisj g0 hg0 (hid0 ▸ htid)
        · intro g0 hg0
          rcases List.mem_cons.mp hg0 with rfl | hg0
          · exact htNotRest
          · intro hmem
            exact hdisj g0 hg0 (hrestSub _ hmem)
        · intro u hu
          exact hidleLt u (hrestMem u hu)
        · intro g0 hg0
          rcases List.mem_cons.mp hg0 with rfl | hg0
          · exact hidleLt t htmem
          · exact hguardLt g0 hg0
      · simp only [hpr, if_false] at hok ⊢
        refine (inv_acquireCreate { s with permits := s.permits - 1, idle := rest }
          env.createEnv [t.tab] hcap ?_ hrestNd hguard ?_ ?_ ?_).1 g hok
        · simp only []
          omega
        · intro g0 hg0 hmem
          exact hdisj g0 hg0 (hrestSub _ hmem)
        · intro u hu
          exact hidleLt u (hrestMem u hu)
        · exact hguardLt
  | acquireFail env e hp herr =>
    rcases idle_eq_nil_or_concat s.idle with hnil | ⟨rest, t, hconcat⟩
    · rw [acquire_tab_nil s env hnil] at herr ⊢
      refine (inv_acquireCreate { s with permits := s.permits - 1 } env.createEnv []
        hcap ?_ hidle hguard hdisj hidleLt hguardLt).2 e herr
      simp only []
      omega
    · rw [acquire_tab_concat s env rest t hconcat] at herr ⊢
      obtain ⟨hrestNd, htNotRest⟩ := nodup_concat_ids (hconcat ▸ hidle)
      have hrestSub : ∀ x, x ∈ rest.map IdleTab.id → x ∈ s.idle.map IdleTab.id := by
        intro x hx
        rw [hconcat, List.map_append]
        exact List.mem_append_left _ hx
      have hrestMem : ∀ u ∈ rest, u ∈ s.idle := by
        intro u hu
        rw [hconcat]
        exact List.mem_append_left _ hu
      by_cases hpr : env.probe t.tab
      · simp [hpr] at herr
      · simp only [hpr, if_false] at herr ⊢
        refine (inv_acquireCreate { s with permits := s.permits - 1, idle := rest }
          env.createEnv [t.tab] hcap ?_ hrestNd hguard ?_ ?_ ?_).2 e herr
        · simp only []
          omega
        · intro g0 hg0 hmem
          exact hdisj g0 hg0 (hrestSub _ hmem)
        · intro u hu
          exact hidleLt u (hrestMem u hu)
        · exact hguardLt
  | release g hg =>
    have hlen : 0 < gs.length := List.length_pos_of_mem hg
    have hgsNd : gs.Nodup := List.Nodup.of_map _ hguard
    refine ⟨hcap, ?_, ?_, ?_, ?_, ?_, ?_⟩
    · simp only [dropGuard, List.length_erase_of_mem hg]
      omega
    · simp only [dropGuard, vecPush, List.map_append, List.map_singleton]
      rw [List.nodup_append]
      refine ⟨hidle, List.nodup_singleton _, ?_⟩
      intro x hx hx1
      rcases List.mem_singleton.mp hx1 with rfl
      exact hdisj g hg hx
    · exact hguard.sublist ((List.erase_sublist g gs).map TabGuard.tab_id)
    · intro g0 hg0
      have hg0' : g0 ∈ gs := List.mem_of_mem_erase hg0
      have hne : g0 ≠ g := ((List.Nodup.mem_erase_iff hgsNd).mp hg0).1
      simp only [dropGuard, vecPush, List.map_append, List.map_singleton]
      rw [List.mem_append]
      rintro (hmem | hmem)
      · exact hdisj g0 hg0' hmem
      · rcases List.mem_singleton.mp hmem with hid
        exact hne (List.inj_on_of_nodup_map hguard hg0' hg hid)
    · intro u hu
      simp only [dropGuard, vecPush] at hu
      rcases List.mem_append.mp hu with hu | hu
      · exact hidleLt u hu
      · rcases List.mem_singleton.mp hu with rfl
        exact hguardLt g hg
    · intro g0 hg0
      exact hguardLt g0 (List.mem_of_mem_erase hg0)
  | timer t_id =>
    have hsub := removeById_fst_sublist s.idle t_id
    refine ⟨hcap, hcount, ?_, hguard, ?_, ?_, hguardLt⟩
    · exact hidle.sublist (hsub.map IdleTab.id)
    · intro g0 hg0 hmem
      simp only [timerFire] at hmem
      exact hdisj g0 hg0 ((hsub.map IdleTab.id).mem hmem)
    · intro u hu
      simp only [timerFire] at hu
      exact hidleLt u (hsub.mem hu)

theorem reach_inv {n : Nat} {s : ManagerState} {gs : List TabGuard}
    (h : Reach n s gs) : Inv n s gs := by
  induction h with
  | init =>
    refine ⟨rfl, by simp [newManager], by simp [newManager], by simp, ?_, ?_, ?_⟩ <;>
      simp [newManager]
  | step _ hstep ih => exact inv_step ih hstep

theorem create_attempt1_ok (s : ManagerState) (env : CreateEnv) (tb : Nat)
    (h : env.attempt1 = .ok tb) :
    create_tab_with_retry s env =
      { result := .ok tb, state := s, restarts := 0, attempts := 1 } := by
  simp [create_tab_with_retry, h]

theorem create_attempts_pos (s : ManagerState) (env : CreateEnv) :
    1 ≤ (create_tab_with_retry s env).attempts := by
  obtain ⟨a1, la, a2⟩ := env
  rcases a1 with e | tb
  · by_cases hc : is_connection_error e
    · rcases la with el | u
      · simp [create_tab_with_retry, restart_browser, hc]
      · rcases a2 with e2 | tb2 <;>
          simp [create_tab_with_retry, restart_browser, hc]
    · simp [create_tab_with_retry, hc]
  · simp [create_tab_with_retry]

theorem acquire_ok_permits {s : ManagerState} {env : AcquireEnv} {g : TabGuard}
    (h : (acquire_tab s env).result = .ok g) :
    (acquire_tab s env).state.permits = s.permits - 1 := by
  rcases idle_eq_nil_or_concat s.idle with hnil | ⟨rest, t, hconcat⟩
  · rw [acquire_tab_nil s env hnil] at h ⊢
    rcases (acquireCreate_state _ env.createEnv []).1 with
      ⟨g', hres, _, hperm, _⟩ | ⟨e, hres, hperm, _⟩
    · exact hperm
    · rw [hres] at h
      simp at h
  · rw [acquire_tab_concat s env rest t hconcat] at h ⊢
    by_cases hpr : env.probe t.tab
    · rw [if_pos hpr]
    · rw [if_neg hpr] at h ⊢
      rcases (acquireCreate_state _ env.createEnv [t.tab]).1 with
        ⟨g', hres, _, hperm, _⟩ | ⟨e, hres, hperm, _⟩
      · exact hperm
      · rw [hres] at h
        simp at h

theorem acquire_error_permits {s : ManagerState} {env : AcquireEnv} {e : AppError}
    (h : (acquire_tab s env).result = .error e) :
    (acquire_tab s env).state.permits = s.permits - 1 + 1 := by
  rcases idle_eq_nil_or_concat s.idle with hnil | ⟨rest, t, hconcat⟩
  · rw [acquire_tab_nil s env hnil] at h ⊢
    rcases (acquireCreate_state _ env.createEnv []).1 with
      ⟨g', hres, _, _, _⟩ | ⟨e', hres, hperm, _⟩
    · rw [hres] at h
      simp at h
    · exact hperm
  · rw [acquire_tab_concat s env rest t hconcat] at h ⊢
    by_cases hpr : env.probe t.tab
    · rw [if_pos hpr] at h
      simp at h
    · rw [if_neg hpr] at h ⊢
      rcases (acquireCreate_state _ env.createEnv [t.tab]).1 with
        ⟨g', hres, _, _, _⟩ | ⟨e', hres, hperm, _⟩
      · rw [hres] at h
        simp at h
      · exact hperm

/-! ### Claim theorems -/

/-- C1: For every sequence of acquire and release operations on a pool
constructed with capacity n, the number of simultaneously outstanding leases
(TabGuards whose permit has been taken from the gate and not yet returned)
never exceeds n. -/
theorem outstanding_leases_le_capacity {n : Nat} {s : ManagerState}
    {gs : List TabGuard} (h : Reach n s gs) : gs.length ≤ n := by
  have hinv := reach_inv h
  have := hinv.count
  omega

theorem outstanding_leases_le_capacity_witness :
    [TabGuard.mk 0 0].length ≤ 1 :=
  outstanding_leases_le_capacity
    (Reach.step Reach.init
      (PoolStep.acquireOk (newManager 1) [] simpleAcquireEnv ⟨0, 0⟩ (by decide) rfl))

/-- C2: In the tab-creation protocol, a creation failure classified as
process-lost triggers exactly one restart (which empties the idle cache and
installs a fresh browser process) followed by exactly one retried creation
attempt (two new_tab calls in total) whose failure is propagated; a creation
failure not classified as process-lost is propagated immediately with no
restart and no state change. -/
theorem create_tab_retry_protocol (s : ManagerState) (env : CreateEnv) (e : String)
    (h1 : env.attempt1 = .error e) :
    (is_connection_error e = true → env.launch = .ok () →
      (create_tab_with_retry s env).restarts = 1 ∧
      (create_tab_with_retry s env).attempts = 2 ∧
      (create_tab_with_retry s env).state.idle = [] ∧
      (create_tab_with_retry s env).state.gen = s.gen + 1 ∧
      (∀ tb, env.attempt2 = .ok tb → (create_tab_with_retry s env).result = .ok tb) ∧
      (∀ e2, env.attempt2 = .error e2 →
        (create_tab_with_retry s env).result =
          .error (.Browser ("Tab creation failed after restart: " ++ e2)))) ∧
    (is_connection_error e = false →
      (create_tab_with_retry s env).restarts = 0 ∧
      (create_tab_with_retry s env).attempts = 1 ∧
      (create_tab_with_retry s env).state = s ∧
      (create_tab_with_retry s env).result =
        .error (.Browser ("Tab creation failed: " ++ e))) := by
  constructor
  · intro hc hl
    rcases h2 : env.attempt2 with e2 | tb2
    · refine ⟨?_, ?_, ?_, ?_, ?_, ?_⟩
      · simp [create_tab_with_retry, restart_browser, h1, hc, hl, h2]
      · simp [create_tab_with_retry, restart_browser, h1, hc, hl, h2]
      · simp [create_tab_with_retry, restart_browser, h1, hc, hl, h2]
      · simp [create_tab_with_retry, restart_browser, h1, hc, hl, h2]
      · intro tb htb
        simp at htb
      · intro e2' he2
        obtain rfl : e2 = e2' := Except.error.inj he2
        simp [create_tab_with_retry, restart_browser, h1, hc, hl, h2]
    · refine ⟨?_, ?_, ?_, ?_, ?_, ?_⟩
      · simp [create_tab_with_retry, restart_browser, h1, hc, hl, h2]
      · simp [create_tab_with_retry, restart_browser, h1, hc, hl, h2]
      · simp [create_tab_with_retry, restart_browser, h1, hc, hl, h2]
      · simp [create_tab_with_retry, restart_browser, h1, hc, hl, h2]
      · intro tb htb
        obtain rfl : tb2 = tb := Except.ok.inj htb
        simp [create_tab_with_retry, restart_browser, h1, hc, hl, h2]
      · intro e2 he2
        simp at he2
  · intro hc
    refine ⟨?_, ?_, ?_, ?_⟩ <;> simp [create_tab_with_retry, h1, hc]

theorem create_tab_retry_protocol_witness :
    ((create_tab_with_retry (newManager 1)
        { attempt1 := .error "connection closed", launch := .ok ()
          attempt2 := .error "boom" }).restarts = 1 ∧
      (create_tab_with_retry (newManager 1)
        { attempt1 := .error "connection closed", launch := .ok ()
          attempt2 := .error "boom" }).result =
        .error (.Browser ("Tab creation failed after restart: " ++ "boom"))) ∧
    ((create_tab_with_retry (newManager 1)
        { attempt1 := .error "boom", launch := .ok ()
          attempt2 := .ok 0 }).restarts = 0 ∧
      (create_tab_with_retry (newManager 1)
        { attempt1 := .error "boom", launch := .ok ()
          attempt2 := .ok 0 }).result =
        .error (.Browser ("Tab creation failed: " ++ "boom"))) := by
  have hA := (create_tab_retry_protocol (newManager 1)
      { attempt1 := .error "connection closed", launch := .ok ()
        attempt2 := .error "boom" } "connection closed" rfl).1 (by decide) rfl
  have hB := (create_tab_retry_protocol (newManager 1)
      { attempt1 := .error "boom", launch := .ok (), attempt2 := .ok 0 }
      "boom" rfl).2 (by decide)
  exact ⟨⟨hA.1, hA.2.2.2.2.2 "boom" rfl⟩, ⟨hB.1, hB.2.2.2⟩⟩

/-- C6: If acquire obtains a capacity token but tab creation then fails (with
or without restart), the token is released before the error is surfaced, so a
failed acquire never reduces the pool's capacity. -/
theorem failed_acquire_releases_permit (s : ManagerState) (env : AcquireEnv)
    (e : AppError) (hp : 0 < s.permits)
    (h : (acquire_tab s env).result = .error e) :
    (acquire_tab s env).state.permits = s.permits := by
  rw [acquire_error_permits h]
  omega

theorem failed_acquire_releases_permit_witness :
    (acquire_tab (newManager 1)
        { probe := fun _ => false
          createEnv :=
            { attempt1 := .error "boom", launch := .ok ()
              attempt2 := .ok 0 } }).state.permits = 1 :=
  failed_acquire_releases_permit (newManager 1)
    { probe := fun _ => false
      createEnv := { attempt1 := .error "boom", launch := .ok (), attempt2 := .ok 0 } }
    (.Browser ("Tab creation failed: " ++ "boom")) (by decide) rfl

/-- C7: The idle cache is LIFO: pop after a push returns the pushed entry and
the prior cache; in particular a reclaim right after a release returns that
released tab, and reclaim on an empty cache signals empty. -/
theorem idle_cache_lifo (s : ManagerState) (g : TabGuard) :
    (∀ v x, vecPop (vecPush v x) = (some x, v)) ∧
    vecPop (dropGuard s g).idle = (some { id := g.tab_id, tab := g.tab }, s.idle) ∧
    (s.idle = [] → vecPop s.idle = (none, [])) := by
  refine ⟨vecPop_push, ?_, ?_⟩
  · simpa [dropGuard] using vecPop_push s.idle { id := g.tab_id, tab := g.tab }
  · intro h
    simp [h, vecPop]

theorem idle_cache_lifo_witness :
    vecPop (dropGuard (newManager 1) ⟨5, 9⟩).idle = (some { id := 9, tab := 5 }, []) ∧
    vecPop (newManager 1).idle = (none, []) := by
  have h := idle_cache_lifo (newManager 1) ⟨5, 9⟩
  exact ⟨h.2.1, h.2.2 rfl⟩

/-- C8: In the Format step of do_scrape, with navigation and extraction
successful: requesting Html returns the extracted body markup unchanged;
requesting Markdown passes the body markup through the conversion
collaborator, and a conversion failure yields an Internal error. -/
theorem format_step (env : DoScrapeEnv) (ext : PageExtractResult)
    (hnav : env.navResult = .ok ()) (hext : env.extractResult = .ok ext) :
    (do_scrape env .Html =
      .ok ({ title := ext.title, og_tags := ext.og_tags }, ext.body_html)) ∧
    (∀ md, env.convert ext.body_html = .ok md →
      do_scrape env .Markdown =
        .ok ({ title := ext.title, og_tags := ext.og_tags }, md)) ∧
    (∀ e, env.convert ext.body_html = .error e →
      do_scrape env .Markdown =
        .error (.Internal ("Markdown conversion failed: " ++ e))) := by
  refine ⟨?_, ?_, ?_⟩
  · simp [do_scrape, hnav, hext]
  · intro md hmd
    simp [do_scrape, hnav, hext, hmd]
  · intro e he
    simp [do_scrape, hnav, hext, he]

theorem format_step_witness :
    (do_scrape
        { navResult := .ok (), extractResult := .ok ⟨"T", [], "<body><p>Hi</p></body>"⟩
          convert := fun _ => .ok "Hi" } .Html =
      .ok ({ title := "T", og_tags := [] }, "<body><p>Hi</p></body>")) ∧
    (do_scrape
        { navResult := .ok (), extractResult := .ok ⟨"T", [], "<body><p>Hi</p></body>"⟩
          convert := fun _ => .ok "Hi" } .Markdown =
      .ok ({ title := "T", og_tags := [] }, "Hi")) ∧
    (do_scrape
        { navResult := .ok (), extractResult := .ok ⟨"T", [], "<body><p>Hi</p></body>"⟩
          convert := fun _ => .error "bad" } .Markdown =
      .error (.Internal ("Markdown conversion failed: " ++ "bad"))) := by
  have h1 := format_step
    { navResult := .ok (), extractResult := .ok ⟨"T", [], "<body><p>Hi</p></body>"⟩
      convert := fun _ => .ok "Hi" } ⟨"T", [], "<body><p>Hi</p></body>"⟩ rfl rfl
  have h2 := format_step
    { navResult := .ok (), extractResult := .ok ⟨"T", [], "<body><p>Hi</p></body>"⟩
      convert := fun _ => .error "bad" } ⟨"T", [], "<body><p>Hi</p></body>"⟩ rfl rfl
  exact ⟨h1.1, h1.2.1 "Hi" rfl, h2.2.2 "bad" rfl⟩

theorem acquireCreate_probed (s : ManagerState) (env : CreateEnv) (probed : List Nat) :
    (acquireCreate s env probed).probed = probed := by
  rcases h : (create_tab_with_retry s env).result with e | tb <;> simp [acquireCreate, h]

theorem acquireCreate_closed (s : ManagerState) (env : CreateEnv) (probed : List Nat) :
    (acquireCreate s env probed).closed = [] := by
  rcases h : (create_tab_with_retry s env).result with e | tb <;> simp [acquireCreate, h]

theorem acquireCreate_attempts (s : ManagerState) (env : CreateEnv) (probed : List Nat) :
    (acquireCreate s env probed).attempts = (create_tab_with_retry s env).attempts := by
  rcases h : (create_tab_with_retry s env).result with e | tb <;> simp [acquireCreate, h]

/-- C3: If the overall per-request timeout elapses before the
navigate/wait/extract/format chain completes, scrape_page returns a Timeout
error, and the lease is still released through the normal release path: the
permit is returned (the free-slot count is restored) and the tab is offered
back to the idle cache. -/
theorem scrape_timeout_releases_lease (s : ManagerState) (env : ScrapeEnv)
    (url : String) (fmt : OutputFormat) (g : TabGuard)
    (hp : 0 < s.permits) (hTo : env.timedOut = true)
    (hAcq : (acquire_tab s env.acquireEnv).result = .ok g) :
    (scrape_page s env url fmt).result = .error (.Timeout (timeoutMsg url)) ∧
    (scrape_page s env url fmt).state.permits = s.permits ∧
    (scrape_page s env url fmt).state.idle =
      vecPush (acquire_tab s env.acquireEnv).state.idle
        { id := g.tab_id, tab := g.tab } := by
  have hperm := acquire_ok_permits hAcq
  refine ⟨?_, ?_, ?_⟩
  · simp [scrape_page, hAcq, hTo]
  · have hstep : (scrape_page s env url fmt).state.permits =
        (acquire_tab s env.acquireEnv).state.permits + 1 := by
      simp [scrape_page, hAcq, hTo, dropGuard]
    rw [hstep, hperm]
    omega
  · simp [scrape_page, hAcq, hTo, dropGuard]

theorem scrape_timeout_releases_lease_witness :
    (scrape_page (newManager 1)
        { acquireEnv := simpleAcquireEnv, timedOut := true
          scrapeEnv :=
            { navResult := .ok (), extractResult := .ok ⟨"", [], ""⟩
              convert := fun st => .ok st } }
        "http://x" .Html).result = .error (.Timeout (timeoutMsg "http://x")) ∧
    (scrape_page (newManager 1)
        { acquireEnv := simpleAcquireEnv, timedOut := true
          scrapeEnv :=
            { navResult := .ok (), extractResult := .ok ⟨"", [], ""⟩
              convert := fun st => .ok st } }
        "http://x" .Html).state.permits = 1 := by
  have h := scrape_timeout_releases_lease (newManager 1)
    { acquireEnv := simpleAcquireEnv, timedOut := true
      scrapeEnv :=
        { navResult := .ok (), extractResult := .ok ⟨"", [], ""⟩
          convert := fun st => .ok st } }
    "http://x" .Html ⟨0, 0⟩ (by decide) rfl rfl
  exact ⟨h.1, h.2.1⟩

theorem acquireK_simple (k : Nat) (s : ManagerState) (h : s.idle = []) :
    acquireK k s =
      { s with permits := s.permits - k, nextTabId := s.nextTabId + k } := by
  induction k generalizing s with
  | zero => simp [acquireK]
  | succ k ih =>
    show acquireK k (acquire_tab s simpleAcquireEnv).state = _
    have hstep : (acquire_tab s simpleAcquireEnv).state =
        { s with permits := s.permits - 1, nextTabId := s.nextTabId + 1 } := by
      rw [acquire_tab_nil s simpleAcquireEnv h]
      simp [acquireCreate, create_tab_with_retry, simpleAcquireEnv, simpleCreateEnv]
    rw [hstep,
      ih { s with permits := s.permits - 1, nextTabId := s.nextTabId + 1 } h]
    have h1 : s.permits - 1 - k = s.permits - (k + 1) := by omega
    have h2 : s.nextTabId + 1 + k = s.nextTabId + (k + 1) := by omega
    simp [h1, h2]

/-- C9: stats is a side-effect-free snapshot of the state reporting the
configured capacity, the free-slot count, the idle-cache size, and
active = capacity − free; after acquiring k leases of capacity n (and
releasing none) it reports free = n − k and active = k. -/
theorem stats_after_k_acquires (n k : Nat) (hk : k ≤ n) :
    stats (acquireK k (newManager n)) =
      { max_concurrent := n, available_slots := n - k, idle_tabs := 0
        active_tabs := k } := by
  rw [acquireK_simple k (newManager n) rfl]
  simp [stats, newManager, BrowserStats.mk.injEq]
  omega

theorem stats_after_k_acquires_witness :
    stats (acquireK 1 (newManager 2)) =
      { max_concurrent := 2, available_slots := 1, idle_tabs := 0
        active_tabs := 1 } :=
  stats_after_k_acquires 2 1 (by decide)

/-- C10: Each acquire examines at most one idle-cache entry: at most one
liveness probe happens per acquire; when the popped (most recent) entry's
probe fails, the acquire falls through to tab creation (at least one new_tab
call) without probing any remaining idle entries, and those entries stay
cached when the first creation attempt succeeds. -/
theorem acquire_probes_at_most_one (s : ManagerState) (env : AcquireEnv) :
    (acquire_tab s env).probed.length ≤ 1 ∧
    (∀ rest t, s.idle = rest ++ [t] → env.probe t.tab = false →
      (acquire_tab s env).probed = [t.tab] ∧
      1 ≤ (acquire_tab s env).attempts ∧
      (∀ tb, env.createEnv.attempt1 = .ok tb →
        (acquire_tab s env).state.idle = rest)) := by
  constructor
  · rcases idle_eq_nil_or_concat s.idle with hnil | ⟨rest, t, hconcat⟩
    · rw [acquire_tab_nil s env hnil, acquireCreate_probed]
      simp
    · rw [acquire_tab_concat s env rest t hconcat]
      by_cases hpr : env.probe t.tab
      · rw [if_pos hpr]
        simp
      · rw [if_neg hpr, acquireCreate_probed]
        simp
  · intro rest t hconcat hpr
    rw [acquire_tab_concat s env rest t hconcat]
    rw [if_neg (by simp [hpr])]
    refine ⟨acquireCreate_probed _ _ _, ?_, ?_⟩
    · rw [acquireCreate_attempts]
      exact create_attempts_pos _ _
    · intro tb htb
      simp [acquireCreate, create_attempt1_ok _ _ _ htb]

theorem acquire_probes_at_most_one_witness :
    (acquire_tab
        { permits := 1, idle := [{ id := 3, tab := 7 }, { id := 4, tab := 8 }]
          gen := 0, nextTabId := 5, max_concurrent_tabs := 1 }
        { probe := fun _ => false, createEnv := simpleCreateEnv }).probed = [8] ∧
    (acquire_tab
        { permits := 1, idle := [{ id := 3, tab := 7 }, { id := 4, tab := 8 }]
          gen := 0, nextTabId := 5, max_concurrent_tabs := 1 }
        { probe := fun _ => false, createEnv := simpleCreateEnv }).state.idle =
      [{ id := 3, tab := 7 }] := by
  have h := (acquire_probes_at_most_one
      { permits := 1, idle := [{ id := 3, tab := 7 }, { id := 4, tab := 8 }]
        gen := 0, nextTabId := 5, max_concurrent_tabs := 1 }
      { probe := fun _ => false, createEnv := simpleCreateEnv }).2
    [{ id := 3, tab := 7 }] { id := 4, tab := 8 } rfl rfl
  exact ⟨h.1, h.2.2 0 rfl⟩

/-- C4: Removal of an idle-cache entry is idempotent across the two removal
paths: on every reachable state an id appears in the cache at most once; when
the grace-period timer fires for an id still present, that entry is removed
and its tab closed (exactly one close); when it fires for an id already
reclaimed (absent), the timer is a no-op, and firing again after a removal is
a no-op — no double-close and no double-issue. -/
theorem idle_removal_idempotent :
    (∀ n s gs, Reach n s gs → ((s.idle.map IdleTab.id)).Nodup) ∧
    (∀ s t_id, ((s.idle.map IdleTab.id)).Nodup →
      (t_id ∈ s.idle.map IdleTab.id →
        ∃ t ∈ s.idle, t.id = t_id ∧ (timerFire s t_id).2 = [t.tab] ∧
          t_id ∉ ((timerFire s t_id).1.idle.map IdleTab.id) ∧
          timerFire (timerFire s t_id).1 t_id = ((timerFire s t_id).1, [])) ∧
      (t_id ∉ s.idle.map IdleTab.id → timerFire s t_id = (s, []))) := by
  have habsent : ∀ s t_id, t_id ∉ s.idle.map IdleTab.id → timerFire s t_id = (s, []) := by
    intro s t_id hno
    have hne : ∀ t ∈ s.idle, t.id ≠ t_id := by
      intro t ht heq
      exact hno (List.mem_map.mpr ⟨t, ht, heq⟩)
    simp [timerFire, removeById_not_mem hne]
  refine ⟨?_, ?_⟩
  · intro n s gs h
    exact (reach_inv h).idleNodup
  · intro s t_id hnd
    refine ⟨?_, habsent s t_id⟩
    intro hmem
    rcases removeById_mem hnd hmem with ⟨t, htmem, htid, heq, hnot⟩
    have hsnd : (removeById s.idle t_id).2 = some t := congrArg Prod.snd heq
    refine ⟨t, htmem, htid, ?_, ?_, ?_⟩
    · simp [timerFire, hsnd]
    · simpa [timerFire] using hnot
    · exact habsent _ t_id (by simpa [timerFire] using hnot)

theorem idle_removal_idempotent_witness :
    (timerFire
        witnessState 3).2 = [7] ∧
    timerFire
        witnessState 9 =
      (witnessState, []) := by
  have hp := (idle_removal_idempotent.2
      witnessState 3 (by decide)).1 (by decide)
  have ha := (idle_removal_idempotent.2
      witnessState 9 (by decide)).2 (by decide)
  rcases hp with ⟨t, ht, _, h2, _, _⟩
  obtain rfl := List.mem_singleton.mp ht
  exact ⟨h2, ha⟩

/-- C5 counterexample: a concrete acquire in which the popped idle tab's
probe fails: the tab is removed from the cache and the acquire falls through
to creating a fresh tab, but no close(true) call is issued for the discarded
tab (the source's only close call is in the expiry-timer task) — refuting
"that tab is discarded by closing it". -/
theorem probe_fail_no_close_counterexample :
    (acquire_tab
        witnessState
        { probe := fun _ => false, createEnv := simpleCreateEnv }).probed = [7] ∧
    (acquire_tab
        witnessState
        { probe := fun _ => false, createEnv := simpleCreateEnv }).state.idle = [] ∧
    (acquire_tab
        witnessState
        { probe := fun _ => false, createEnv := simpleCreateEnv }).result =
      .ok { tab := 0, tab_id := 4 } ∧
    7 ∉ (acquire_tab
        witnessState
        { probe := fun _ => false, createEnv := simpleCreateEnv }).closed := by
  refine ⟨rfl, rfl, rfl, ?_⟩
  intro hmem
  simp [acquire_tab, vecPop, acquireCreate, create_tab_with_retry,
    simpleCreateEnv, witnessState] at hmem

/-- C5 (amended): On every reclaim of an idle tab during acquire, the tab's
liveness is checked by the cheap probe before reuse — the entry is reused as
the lease exactly when its probe succeeds; if the probe fails, that tab is
discarded (removed from the idle cache, with no explicit close call) and the
acquire falls through to creating a fresh tab. -/
theorem probe_checked_before_reuse (s : ManagerState) (env : AcquireEnv)
    (rest : List IdleTab) (t : IdleTab) (hconcat : s.idle = rest ++ [t]) :
    (env.probe t.tab = true →
      (acquire_tab s env).result = .ok { tab := t.tab, tab_id := t.id } ∧
      (acquire_tab s env).probed = [t.tab] ∧
      (acquire_tab s env).state.idle = rest) ∧
    (env.probe t.tab = false →
      (acquire_tab s env).probed = [t.tab] ∧
      (acquire_tab s env).closed = [] ∧
      1 ≤ (acquire_tab s env).attempts ∧
      ((acquire_tab s env).state.idle = rest ∨
        (acquire_tab s env).state.idle = [])) := by
  rw [acquire_tab_concat s env rest t hconcat]
  constructor
  · intro hpr
    rw [if_pos hpr]
    exact ⟨rfl, rfl, rfl⟩
  · intro hpr
    rw [if_neg (by simp [hpr])]
    refine ⟨acquireCreate_probed _ _ _, acquireCreate_closed _ _ _, ?_, ?_⟩
    · rw [acquireCreate_attempts]
      exact create_attempts_pos _ _
    · exact (acquireCreate_state
        { s with permits := s.permits - 1, idle := rest } env.createEnv [t.tab]).2.2

theorem probe_checked_before_reuse_witness :
    (acquire_tab
        witnessState
        { probe := fun _ => true, createEnv := simpleCreateEnv }).result =
      .ok { tab := 7, tab_id := 3 } ∧
    (acquire_tab
        witnessState
        { probe := fun _ => false, createEnv := simpleCreateEnv }).closed = [] := by
  have h1 := (probe_checked_before_reuse
      witnessState
      { probe := fun _ => true, createEnv := simpleCreateEnv }
      [] { id := 3, tab := 7 } rfl).1 rfl
  have h2 := (probe_checked_before_reuse
      witnessState
      { probe := fun _ => false, createEnv := simpleCreateEnv }
      [] { id := 3, tab := 7 } rfl).2 rfl
  exact ⟨h1.1, h2.2.1⟩

end Distill
